import Mathlib

/-!
Verification development for the embedded PLC runtime.

Shallow embedding of the variable store (variables.c, named here after the
source file shipped as src/unnamed/part_003), the ladder element library
(main/ladder_elements.c), and the wire engine plus configuration ingestion
(main/conf_task_manager.c).

Modeling conventions:
- C doubles are modeled as rationals.  The comparison structure of the source
  is preserved exactly; rounding of binary floating point is not modeled.
- C functions that dereference a possibly NULL pointer (find_variable result,
  strcmp on a NULL suffix) return Option, with none standing for the fault.
- The monotonic microsecond clock (esp_timer_get_time) is passed explicitly
  as an integer parameter named now.
- External GPIO and DAC drivers are an Env record of functions, mirroring the
  driver calls made by the source.
-/

namespace PLCRun

/-- External driver layer: digital input read, latched digital output state,
latched analog (DAC) output state.  These model get_digital_input_value,
get_digital_output_value / set_digital_output_value and
get_analog_output_value / set_analog_output_value. -/
structure Env where
  din : String → Bool
  dout : String → Bool
  aout : String → ℚ

/-- Counter payload, variables.h struct Counter. -/
structure Counter where
  pv : ℚ
  cv : ℚ
  cu : Bool
  cd : Bool
  qu : Bool
  qd : Bool
deriving DecidableEq

/-- Timer payload, variables.h struct Timer.  The C field named in is a Lean
keyword, so it is called tin here. -/
structure Timer where
  pt : ℚ
  et : ℚ
  tin : Bool
  q : Bool
deriving DecidableEq

/-- Variant payload of one variable, variables.h VariableType plus the
per-variant structs.  The type string of the base struct lives in
VariableNode.typeStr. -/
inductive VarData where
  | daio (pin : String)
  | oneWire (pin : String) (value : ℚ)
  | adc (sensorType pdSck dataOut : String) (mapLow mapHigh gain : ℚ)
        (samplingRate : String) (value : ℚ)
  | boolean (value : Bool)
  | number (value : ℚ)
  | counter (c : Counter)
  | timer (t : Timer)
  | time (value : ℚ)
deriving DecidableEq

/-- One entry of the variable store, variables.h VariableNode together with
the base struct (name and type string). -/
structure VariableNode where
  name : String
  typeStr : String
  vdata : VarData
deriving DecidableEq

/-- The global variables_list, as the ordered list of its nodes. -/
abbrev Store := List VariableNode

/-- The ten suffixes recognized by parse_variable_name. -/
def suffix_list : List String :=
  [".CU", ".CD", ".QU", ".QD", ".IN", ".Q", ".PV", ".CV", ".PT", ".ET"]

/-- Split a character list at its last dot; the second component keeps the
dot, mirroring strrchr. -/
def splitAtLastDot : List Char → Option (List Char × List Char)
  | [] => none
  | c :: rest =>
    match splitAtLastDot rest with
    | some p => some (c :: p.1, p.2)
    | none => if c = '.' then some ([], '.' :: rest) else none

/-- Name parsing, variables.c parse_variable_name.  A recognized suffix after
the last dot is split off; otherwise the whole name is the base (truncated to
63 characters by strncpy into the 64 byte buffer). -/
def parse_variable_name (var_name : String) : String × Option String :=
  match splitAtLastDot var_name.toList with
  | some p =>
      let suf := String.mk p.2
      if suf ∈ suffix_list then (String.mk p.1, some suf)
      else (String.mk (var_name.toList.take 63), none)
  | none => (String.mk (var_name.toList.take 63), none)

/-- Linear lookup by base name, variables.c find_variable. -/
def find_variable (store : Store) (k : String) : Option VariableNode :=
  store.find? (fun n => n.name == k)

/-- In-place mutation through the pointer returned by find_variable: replace
the payload of the first node with the given name. -/
def update_variable (store : Store) (k : String) (d : VarData) : Store :=
  match store with
  | [] => []
  | n :: rest =>
      if n.name == k then { n with vdata := d } :: rest
      else n :: update_variable rest k d

/-- Boolean store read, variables.c read_variable.  The C code dereferences
the find_variable result without a NULL check, so a missing base name is a
fault (none).  In the Counter and Timer cases the C code calls strcmp on the
suffix pointer, which is NULL when no recognized suffix was parsed: that is a
fault as well. -/
def read_variable (env : Env) (store : Store) (var_name : String) : Option Bool :=
  let p := parse_variable_name var_name
  match find_variable store p.1 with
  | none => none
  | some node =>
    match node.vdata with
    | VarData.daio pin =>
        if node.typeStr = "Digital Input" then some (env.din pin)
        else if node.typeStr = "Digital Output" then some (env.dout pin)
        else some false
    | VarData.boolean b => some b
    | VarData.counter c =>
        match p.2 with
        | none => none
        | some suf =>
            if suf = ".CU" then some c.cu
            else if suf = ".CD" then some c.cd
            else if suf = ".QU" then some c.qu
            else if suf = ".QD" then some c.qd
            else some false
    | VarData.timer t =>
        match p.2 with
        | none => none
        | some suf =>
            if suf = ".IN" then some t.tin
            else if suf = ".Q" then some t.q
            else some false
    | _ => some false

/-- Boolean store write, variables.c write_variable.  Same fault modeling as
read_variable.  A DigitalAnalogIO node routes to set_digital_output_value
regardless of its role. -/
def write_variable (env : Env) (store : Store) (var_name : String) (value : Bool) :
    Option (Env × Store) :=
  let p := parse_variable_name var_name
  match find_variable store p.1 with
  | none => none
  | some node =>
    match node.vdata with
    | VarData.daio pin =>
        some ({ env with dout := fun q => if q = pin then value else env.dout q }, store)
    | VarData.boolean _ =>
        some (env, update_variable store p.1 (VarData.boolean value))
    | VarData.counter c =>
        match p.2 with
        | none => none
        | some suf =>
            if suf = ".CU" then
              some (env, update_variable store p.1 (VarData.counter { c with cu := value }))
            else if suf = ".CD" then
              some (env, update_variable store p.1 (VarData.counter { c with cd := value }))
            else if suf = ".QU" then
              some (env, update_variable store p.1 (VarData.counter { c with qu := value }))
            else if suf = ".QD" then
              some (env, update_variable store p.1 (VarData.counter { c with qd := value }))
            else some (env, store)
    | VarData.timer t =>
        match p.2 with
        | none => none
        | some suf =>
            if suf = ".IN" then
              some (env, update_variable store p.1 (VarData.timer { t with tin := value }))
            else if suf = ".Q" then
              some (env, update_variable store p.1 (VarData.timer { t with q := value }))
            else some (env, store)
    | _ => some (env, store)

/-- Numeric store read, variables.c read_numeric_variable.  For an Analog
Input the C source calls the digital input driver; the bool return converts
to 0 or 1 as a double. -/
def read_numeric_variable (env : Env) (store : Store) (var_name : String) : Option ℚ :=
  let p := parse_variable_name var_name
  match find_variable store p.1 with
  | none => none
  | some node =>
    match node.vdata with
    | VarData.daio pin =>
        if node.typeStr = "Analog Input" then some (if env.din pin then 1 else 0)
        else if node.typeStr = "Analog Output" then some (env.aout pin)
        else some 0
    | VarData.oneWire _ v => some v
    | VarData.adc _ _ _ _ _ _ _ v => some v
    | VarData.number v => some v
    | VarData.time v => some v
    | VarData.counter c =>
        match p.2 with
        | none => none
        | some suf =>
            if suf = ".PV" then some c.pv
            else if suf = ".CV" then some c.cv
            else some 0
    | VarData.timer t =>
        match p.2 with
        | none => none
        | some suf =>
            if suf = ".PT" then some t.pt
            else if suf = ".ET" then some t.et
            else some 0
    | _ => some 0

/-- Numeric store write, variables.c write_numeric_variable.  A
DigitalAnalogIO node rounds and clamps to 0..255 and writes the DAC driver. -/
def write_numeric_variable (env : Env) (store : Store) (var_name : String) (value : ℚ) :
    Option (Env × Store) :=
  let p := parse_variable_name var_name
  match find_variable store p.1 with
  | none => none
  | some node =>
    match node.vdata with
    | VarData.daio pin =>
        let iv : ℤ := round value
        let scaled : ℤ := if iv < 0 then 0 else if iv > 255 then 255 else iv
        some ({ env with aout := fun q => if q = pin then (scaled : ℚ) else env.aout q }, store)
    | VarData.number _ =>
        some (env, update_variable store p.1 (VarData.number value))
    | VarData.time _ =>
        some (env, update_variable store p.1 (VarData.time value))
    | VarData.counter c =>
        match p.2 with
        | none => none
        | some suf =>
            if suf = ".PV" then
              some (env, update_variable store p.1 (VarData.counter { c with pv := value }))
            else if suf = ".CV" then
              some (env, update_variable store p.1 (VarData.counter { c with cv := value }))
            else some (env, store)
    | VarData.timer t =>
        match p.2 with
        | none => none
        | some suf =>
            if suf = ".PT" then
              some (env, update_variable store p.1 (VarData.timer { t with pt := value }))
            else if suf = ".ET" then
              some (env, update_variable store p.1 (VarData.timer { t with et := value }))
            else some (env, store)
    | _ => some (env, store)

/-- Edge table lookup by variable name (the OneShotState array of
ladder_elements.c, searched linearly). -/
def edge_lookup (t : List (String × Bool)) (k : String) : Option Bool :=
  (t.find? (fun e => e.1 == k)).map (fun e => e.2)

/-- Writing through the prev_state pointer of the matching entry. -/
def edge_set (t : List (String × Bool)) (k : String) (v : Bool) : List (String × Bool) :=
  t.map (fun e => if e.1 == k then (e.1, v) else e)

/-- ladder_elements.c get_one_shot_state: return the existing prev flag, or
append a fresh false entry while under the MAX_ONE_SHOT_STATES = 64 cap;
none when the cap is reached. -/
def get_one_shot_state (t : List (String × Bool)) (k : String) :
    Option (Bool × List (String × Bool)) :=
  match edge_lookup t k with
  | some b => some (b, t)
  | none => if t.length < 64 then some (false, t ++ [(k, false)]) else none

/-- Per-timer engine state, ladder_elements.c struct TimerState. -/
structure TimerState where
  start_time : ℤ
  running : Bool
deriving DecidableEq

/-- Timer table lookup by variable name. -/
def timer_lookup (t : List (String × TimerState)) (k : String) : Option TimerState :=
  (t.find? (fun e => e.1 == k)).map (fun e => e.2)

/-- Writing through the TimerState pointer of the matching entry. -/
def timer_set (t : List (String × TimerState)) (k : String) (v : TimerState) :
    List (String × TimerState) :=
  t.map (fun e => if e.1 == k then (e.1, v) else e)

/-- ladder_elements.c get_timer_state: existing entry, or a fresh zeroed one
while under the MAX_TIMER_STATES = 32 cap; none at the cap. -/
def get_timer_state (t : List (String × TimerState)) (k : String) :
    Option (TimerState × List (String × TimerState)) :=
  match timer_lookup t k with
  | some st => some (st, t)
  | none =>
      if t.length < 32 then some (⟨0, false⟩, t ++ [(k, ⟨0, false⟩)]) else none

/-- Monotonic-clock premise for one timer name: when its engine state is
running, the recorded start time does not lie in the future of the current
esp_timer_get_time reading. -/
def timer_mono (t : List (String × TimerState)) (k : String) (now : ℤ) : Bool :=
  match timer_lookup t k with
  | some st => !st.running || decide (st.start_time ≤ now)
  | none => true

/-- The mutable globals the element library closes over: the driver layer,
the variable store, and the two engine-private state tables. -/
structure EngState where
  env : Env
  store : Store
  edges : List (String × Bool)
  timers : List (String × TimerState)

/-- Rising edge detection, ladder_elements.c r_trig.  The prev flag is
updated to the current condition on every call with table capacity; at the
cap the function returns false and leaves everything unchanged. -/
def r_trig (s : EngState) (var_name : String) (condition : Bool) : Bool × EngState :=
  match get_one_shot_state s.edges var_name with
  | none => (false, s)
  | some p => (condition && !p.1, { s with edges := edge_set p.2 var_name condition })

/-- ladder_elements.c no_contact: negation of the boolean store read. -/
def no_contact (env : Env) (store : Store) (var_name : String) : Option Bool :=
  match read_variable env store var_name with
  | none => none
  | some result => some (!result)

/-- ladder_elements.c nc_contact: the boolean store read unchanged. -/
def nc_contact (env : Env) (store : Store) (var_name : String) : Option Bool :=
  read_variable env store var_name

/-- ladder_elements.c coil. -/
def coil (s : EngState) (var_name : String) (condition : Bool) : Option EngState :=
  (write_variable s.env s.store var_name condition).map
    (fun p => { s with env := p.1, store := p.2 })

/-- ladder_elements.c one_shot_positive_coil: write the rising edge of the
condition, tracked in the shared edge table. -/
def one_shot_positive_coil (s : EngState) (var_name : String) (condition : Bool) :
    Option EngState :=
  match get_one_shot_state s.edges var_name with
  | none => some s
  | some p =>
      let output := condition && !p.1
      let s1 : EngState := { s with edges := edge_set p.2 var_name condition }
      (write_variable s1.env s1.store var_name output).map
        (fun q => { s1 with env := q.1, store := q.2 })

/-- ladder_elements.c set_coil. -/
def set_coil (s : EngState) (var_name : String) (condition : Bool) : Option EngState :=
  if condition then
    (write_variable s.env s.store var_name true).map
      (fun p => { s with env := p.1, store := p.2 })
  else some s

/-- ladder_elements.c reset_coil. -/
def reset_coil (s : EngState) (var_name : String) (condition : Bool) : Option EngState :=
  if condition then
    (write_variable s.env s.store var_name false).map
      (fun p => { s with env := p.1, store := p.2 })
  else some s

/-- ladder_elements.c add: rising edge gated on the output name. -/
def add (s : EngState) (a b c : String) (condition : Bool) : Option EngState :=
  let r := r_trig s c condition
  if r.1 then
    match read_numeric_variable r.2.env r.2.store a with
    | none => none
    | some x =>
      match read_numeric_variable r.2.env r.2.store b with
      | none => none
      | some y =>
          (write_numeric_variable r.2.env r.2.store c (x + y)).map
            (fun p => { r.2 with env := p.1, store := p.2 })
  else some r.2

/-- ladder_elements.c subtract. -/
def subtract (s : EngState) (a b c : String) (condition : Bool) : Option EngState :=
  let r := r_trig s c condition
  if r.1 then
    match read_numeric_variable r.2.env r.2.store a with
    | none => none
    | some x =>
      match read_numeric_variable r.2.env r.2.store b with
      | none => none
      | some y =>
          (write_numeric_variable r.2.env r.2.store c (x - y)).map
            (fun p => { r.2 with env := p.1, store := p.2 })
  else some r.2

/-- ladder_elements.c multiply. -/
def multiply (s : EngState) (a b c : String) (condition : Bool) : Option EngState :=
  let r := r_trig s c condition
  if r.1 then
    match read_numeric_variable r.2.env r.2.store a with
    | none => none
    | some x =>
      match read_numeric_variable r.2.env r.2.store b with
      | none => none
      | some y =>
          (write_numeric_variable r.2.env r.2.store c (x * y)).map
            (fun p => { r.2 with env := p.1, store := p.2 })
  else some r.2

/-- ladder_elements.c divide: on a fired edge, a divisor of magnitude below
the C literal 1e-6 suppresses the write and returns (the edge table update
from r_trig has already happened). -/
def divide (s : EngState) (a b c : String) (condition : Bool) : Option EngState :=
  let r := r_trig s c condition
  if r.1 then
    match read_numeric_variable r.2.env r.2.store a with
    | none => none
    | some x =>
      match read_numeric_variable r.2.env r.2.store b with
      | none => none
      | some y =>
          if |y| < 1 / 1000000 then some r.2
          else
            (write_numeric_variable r.2.env r.2.store c (x / y)).map
              (fun p => { r.2 with env := p.1, store := p.2 })
  else some r.2

/-- ladder_elements.c move: unconditional copy; the condition argument is
ignored by the source. -/
def move (s : EngState) (a b : String) (condition : Bool) : Option EngState :=
  match read_numeric_variable s.env s.store a with
  | none => none
  | some x =>
      (write_numeric_variable s.env s.store b x).map
        (fun p => { s with env := p.1, store := p.2 })

/-- ladder_elements.c greater. -/
def greater (env : Env) (store : Store) (a b : String) : Option Bool :=
  match read_numeric_variable env store a, read_numeric_variable env store b with
  | some x, some y => some (decide (x > y))
  | _, _ => none

/-- ladder_elements.c less. -/
def less (env : Env) (store : Store) (a b : String) : Option Bool :=
  match read_numeric_variable env store a, read_numeric_variable env store b with
  | some x, some y => some (decide (x < y))
  | _, _ => none

/-- ladder_elements.c greater_or_equal. -/
def greater_or_equal (env : Env) (store : Store) (a b : String) : Option Bool :=
  match read_numeric_variable env store a, read_numeric_variable env store b with
  | some x, some y => some (decide (x ≥ y))
  | _, _ => none

/-- ladder_elements.c less_or_equal. -/
def less_or_equal (env : Env) (store : Store) (a b : String) : Option Bool :=
  match read_numeric_variable env store a, read_numeric_variable env store b with
  | some x, some y => some (decide (x ≤ y))
  | _, _ => none

/-- ladder_elements.c equal. -/
def equal (env : Env) (store : Store) (a b : String) : Option Bool :=
  match read_numeric_variable env store a, read_numeric_variable env store b with
  | some x, some y => some (decide (x = y))
  | _, _ => none

/-- ladder_elements.c not_equal. -/
def not_equal (env : Env) (store : Store) (a b : String) : Option Bool :=
  match read_numeric_variable env store a, read_numeric_variable env store b with
  | some x, some y => some (decide (x ≠ y))
  | _, _ => none

/-- ladder_elements.c count_up: on a fired edge increment cv and refresh the
qu and qd flags.  The source casts node data to Counter unconditionally, so a
missing name or a non counter node is a fault. -/
def count_up (s : EngState) (var_name : String) (condition : Bool) : Option EngState :=
  let r := r_trig s var_name condition
  if r.1 then
    match find_variable r.2.store var_name with
    | none => none
    | some node =>
      match node.vdata with
      | VarData.counter c =>
          let cv1 := c.cv + 1
          let c1 : Counter :=
            { c with cv := cv1, qu := decide (cv1 ≥ c.pv), qd := decide (cv1 ≤ 0) }
          some { r.2 with store := update_variable r.2.store var_name (VarData.counter c1) }
      | _ => none
  else some r.2

/-- ladder_elements.c count_down. -/
def count_down (s : EngState) (var_name : String) (condition : Bool) : Option EngState :=
  let r := r_trig s var_name condition
  if r.1 then
    match find_variable r.2.store var_name with
    | none => none
    | some node =>
      match node.vdata with
      | VarData.counter c =>
          let cv1 := c.cv - 1
          let c1 : Counter :=
            { c with cv := cv1, qu := decide (cv1 ≥ c.pv), qd := decide (cv1 ≤ 0) }
          some { r.2 with store := update_variable r.2.store var_name (VarData.counter c1) }
      | _ => none
  else some r.2

/-- ladder_elements.c timer_on, the on-delay state machine.  now is the value
esp_timer_get_time returns during this call, in microseconds. -/
def timer_on (now : ℤ) (s : EngState) (var_name : String) (condition : Bool) :
    Option (Bool × EngState) :=
  match find_variable s.store var_name with
  | none => none
  | some node =>
    match node.vdata with
    | VarData.timer t =>
      match get_timer_state s.timers var_name with
      | none => some (false, s)
      | some p =>
          let st := p.1
          let tbl := p.2
          if t.pt ≤ 0 then
            let t1 : Timer := { t with tin := condition, et := 0, q := false }
            some (false,
              { s with store := update_variable s.store var_name (VarData.timer t1),
                       timers := timer_set tbl var_name { st with running := false } })
          else if condition then
            let st1 : TimerState :=
              if !st.running && !t.q then ⟨now, true⟩ else st
            if st1.running then
              let et0 : ℚ := ((now - st1.start_time : ℤ) : ℚ) / 1000
              let clamped := decide (et0 > t.pt)
              let et1 := if clamped then t.pt else et0
              let run1 := if clamped then false else st1.running
              let q1 := decide (et1 ≥ t.pt)
              let t1 : Timer := { t with tin := condition, et := et1, q := q1 }
              some (q1,
                { s with store := update_variable s.store var_name (VarData.timer t1),
                         timers := timer_set tbl var_name { st1 with running := run1 } })
            else
              let t1 : Timer := { t with tin := condition, et := t.pt, q := true }
              some (true,
                { s with store := update_variable s.store var_name (VarData.timer t1),
                         timers := timer_set tbl var_name st1 })
          else
            let t1 : Timer := { t with tin := condition, et := 0, q := false }
            some (false,
              { s with store := update_variable s.store var_name (VarData.timer t1),
                       timers := timer_set tbl var_name { st with running := false } })
    | _ => none

/-- ladder_elements.c timer_off, the off-delay state machine. -/
def timer_off (now : ℤ) (s : EngState) (var_name : String) (condition : Bool) :
    Option (Bool × EngState) :=
  match find_variable s.store var_name with
  | none => none
  | some node =>
    match node.vdata with
    | VarData.timer t =>
      match get_timer_state s.timers var_name with
      | none => some (false, s)
      | some p =>
          let st := p.1
          let tbl := p.2
          if t.pt ≤ 0 then
            let t1 : Timer := { t with tin := condition, et := 0, q := condition }
            some (condition,
              { s with store := update_variable s.store var_name (VarData.timer t1),
                       timers := timer_set tbl var_name { st with running := false } })
          else if condition then
            let t1 : Timer := { t with tin := condition, q := true, et := 0 }
            some (true,
              { s with store := update_variable s.store var_name (VarData.timer t1),
                       timers := timer_set tbl var_name { st with running := false } })
          else
            let st1 : TimerState :=
              if !st.running && t.q then ⟨now, true⟩ else st
            if st1.running then
              let et0 : ℚ := ((now - st1.start_time : ℤ) : ℚ) / 1000
              let clamped := decide (et0 > t.pt)
              let et1 := if clamped then t.pt else et0
              let run1 := if clamped then false else st1.running
              let q1 := decide (et1 < t.pt)
              let t1 : Timer := { t with tin := condition, et := et1, q := q1 }
              some (q1,
                { s with store := update_variable s.store var_name (VarData.timer t1),
                         timers := timer_set tbl var_name { st1 with running := run1 } })
            else if !t.q then
              let t1 : Timer := { t with tin := condition, et := 0 }
              some (t1.q,
                { s with store := update_variable s.store var_name (VarData.timer t1),
                         timers := timer_set tbl var_name st1 })
            else
              let t1 : Timer := { t with tin := condition }
              some (t1.q,
                { s with store := update_variable s.store var_name (VarData.timer t1),
                         timers := timer_set tbl var_name st1 })
    | _ => none

/-- ladder_elements.c reset: edge gated; counters are rezeroed or reloaded
depending on cu and cd, timers are cleared when a timer state is available. -/
def reset (s : EngState) (var_name : String) (condition : Bool) : Option EngState :=
  let r := r_trig s var_name condition
  if r.1 then
    match find_variable r.2.store var_name with
    | none => none
    | some node =>
      match node.vdata with
      | VarData.counter c =>
          let cv1 := if c.cu then (0 : ℚ) else c.cv
          let cv2 := if c.cd then c.pv else cv1
          let acted := c.cu || c.cd
          let c1 : Counter :=
            if acted then
              { c with cv := cv2, qu := decide (cv2 ≥ c.pv), qd := decide (cv2 ≤ 0) }
            else c
          some { r.2 with store := update_variable r.2.store var_name (VarData.counter c1) }
      | VarData.timer t =>
          match get_timer_state r.2.timers var_name with
          | none => some r.2
          | some p =>
              let t1 : Timer := { t with et := 0, q := false, tin := false }
              some { r.2 with store := update_variable r.2.store var_name (VarData.timer t1),
                              timers := timer_set p.2 var_name { p.1 with running := false } }
      | _ => some r.2
  else some r.2

/-- Wire node tree, the JSON shape conf_task_manager.c walks: a LadderElement
leaf with its ElementType string and ComboBoxValues argument names, or a
Branch with two parallel node lists. -/
inductive LNode where
  | ladderElement (elementType : String) (args : List String)
  | branch (nodes1 nodes2 : List LNode)

/-- The four terminal coil element types recognized by process_nodes. -/
def is_coil_node : LNode → Bool
  | LNode.ladderElement et _ =>
      et == "Coil" || et == "OneShotPositiveCoil" || et == "SetCoil" || et == "ResetCoil"
  | LNode.branch _ _ => false

/-- conf_task_manager.c process_coil: dispatch the trailing coil element. -/
def process_coil (s : EngState) (node : LNode) (condition : Bool) : Option EngState :=
  match node with
  | LNode.ladderElement et args =>
      match args.get? 0 with
      | some v =>
          if et = "Coil" then coil s v condition
          else if et = "OneShotPositiveCoil" then one_shot_positive_coil s v condition
          else if et = "SetCoil" then set_coil s v condition
          else if et = "ResetCoil" then reset_coil s v condition
          else some s
      | none => some s
  | LNode.branch _ _ => some s

/-- Size of a node list is at least one. -/
theorem lnode_list_sizeOf_pos (l : List LNode) : 0 < sizeOf l := by
  cases l <;> simp_arith

/-- Dropping the last element does not grow the size. -/
theorem lnode_sizeOf_dropLast_le (l : List LNode) : sizeOf l.dropLast ≤ sizeOf l := by
  induction l with
  | nil => simp
  | cons a t ih =>
      cases t with
      | nil => simp [List.dropLast]
      | cons b u =>
          have h : (a :: b :: u).dropLast = a :: (b :: u).dropLast := rfl
          rw [h]
          simp only [List.cons.sizeOf_spec] at ih ⊢
          omega

mutual

/-- conf_task_manager.c process_node.  Condition elements AND their result
into the running condition, except OffDelayTimer which overwrites it; action
elements leave it unchanged; a Branch contributes the OR of its two child
conditions.  Element faults (NULL dereference inside the element library)
propagate as none. -/
def process_node (now : ℤ) (s : EngState) (cond : Bool) (node : LNode) :
    Option (Bool × EngState) :=
  match node with
  | LNode.ladderElement et args =>
      let var1 := args.get? 0
      let var2 := args.get? 1
      let var3 := args.get? 2
      if et = "NOContact" then
        match var1 with
        | some v => (no_contact s.env s.store v).map (fun r => (cond && r, s))
        | none => some (cond, s)
      else if et = "NCContact" then
        match var1 with
        | some v => (nc_contact s.env s.store v).map (fun r => (cond && r, s))
        | none => some (cond, s)
      else if et = "GreaterCompare" then
        match var1, var2 with
        | some a, some b => (greater s.env s.store a b).map (fun r => (cond && r, s))
        | _, _ => some (cond, s)
      else if et = "LessCompare" then
        match var1, var2 with
        | some a, some b => (less s.env s.store a b).map (fun r => (cond && r, s))
        | _, _ => some (cond, s)
      else if et = "GreaterOrEqualCompare" then
        match var1, var2 with
        | some a, some b => (greater_or_equal s.env s.store a b).map (fun r => (cond && r, s))
        | _, _ => some (cond, s)
      else if et = "LessOrEqualCompare" then
        match var1, var2 with
        | some a, some b => (less_or_equal s.env s.store a b).map (fun r => (cond && r, s))
        | _, _ => some (cond, s)
      else if et = "EqualCompare" then
        match var1, var2 with
        | some a, some b => (equal s.env s.store a b).map (fun r => (cond && r, s))
        | _, _ => some (cond, s)
      else if et = "NotEqualCompare" then
        match var1, var2 with
        | some a, some b => (not_equal s.env s.store a b).map (fun r => (cond && r, s))
        | _, _ => some (cond, s)
      else if et = "AddMath" then
        match var1, var2, var3 with
        | some a, some b, some c => (add s a b c cond).map (fun s1 => (cond, s1))
        | _, _, _ => some (cond, s)
      else if et = "SubtractMath" then
        match var1, var2, var3 with
        | some a, some b, some c => (subtract s a b c cond).map (fun s1 => (cond, s1))
        | _, _, _ => some (cond, s)
      else if et = "MultiplyMath" then
        match var1, var2, var3 with
        | some a, some b, some c => (multiply s a b c cond).map (fun s1 => (cond, s1))
        | _, _, _ => some (cond, s)
      else if et = "DivideMath" then
        match var1, var2, var3 with
        | some a, some b, some c => (divide s a b c cond).map (fun s1 => (cond, s1))
        | _, _, _ => some (cond, s)
      else if et = "MoveMath" then
        match var1, var2 with
        | some a, some b => (move s a b cond).map (fun s1 => (cond, s1))
        | _, _ => some (cond, s)
      else if et = "CountUp" then
        match var1 with
        | some v => (count_up s v cond).map (fun s1 => (cond, s1))
        | none => some (cond, s)
      else if et = "CountDown" then
        match var1 with
        | some v => (count_down s v cond).map (fun s1 => (cond, s1))
        | none => some (cond, s)
      else if et = "OnDelayTimer" then
        match var1 with
        | some v => (timer_on now s v cond).map (fun p => (cond && p.1, p.2))
        | none => some (cond, s)
      else if et = "OffDelayTimer" then
        match var1 with
        | some v => (timer_off now s v cond).map (fun p => (p.1, p.2))
        | none => some (cond, s)
      else if et = "Reset" then
        match var1 with
        | some v => (reset s v cond).map (fun s1 => (cond, s1))
        | none => some (cond, s)
      else some (cond, s)
  | LNode.branch nodes1 nodes2 =>
      match process_nodes now s true nodes1 with
      | none => none
      | some r1 =>
        match process_nodes now r1.2.2.2 true nodes2 with
        | none => none
        | some r2 =>
            let branch_condition := r1.1 || r2.1
            let cond1 := cond && branch_condition
            let afterCoil1 : Option EngState :=
              match r1.2.2.1 with
              | some cn => if r1.2.1 then process_coil r2.2.2.2 cn r1.2.1 else some r2.2.2.2
              | none => some r2.2.2.2
            match afterCoil1 with
            | none => none
            | some s3 =>
                let afterCoil2 : Option EngState :=
                  match r2.2.2.1 with
                  | some cn => if r2.2.1 then process_coil s3 cn r2.2.1 else some s3
                  | none => some s3
                match afterCoil2 with
                | none => none
                | some s4 => some (cond1, s4)
termination_by (sizeOf node, 0)
decreasing_by
  · simp_wf
    exact Prod.Lex.left _ _ (by omega)
  · simp_wf
    exact Prod.Lex.left _ _ (by omega)

/-- conf_task_manager.c process_nodes: returns the C return value, the final
value left in the by-reference condition, the detached trailing coil if any,
and the state.  An empty list returns false and leaves the condition
untouched. -/
def process_nodes (now : ℤ) (s : EngState) (cond : Bool) (nodes : List LNode) :
    Option (Bool × Bool × Option LNode × EngState) :=
  match h : nodes.getLast? with
  | none => some (false, cond, none, s)
  | some lastNode =>
      if is_coil_node lastNode then
        match process_list now s cond nodes.dropLast with
        | none => none
        | some r => some (r.1, r.1, some lastNode, r.2)
      else
        match process_list now s cond nodes with
        | none => none
        | some r => some (r.1, r.1, none, r.2)
termination_by (sizeOf nodes, 2)
decreasing_by
  · simp_wf
    rcases lt_or_eq_of_le (lnode_sizeOf_dropLast_le nodes) with h1 | h1
    · exact Prod.Lex.left _ _ h1
    · rw [h1]
      exact Prod.Lex.right _ (by omega)
  · simp_wf
    exact Prod.Lex.right _ (by omega)

/-- The node loop of process_nodes: thread the condition through
process_node from left to right. -/
def process_list (now : ℤ) (s : EngState) (cond : Bool) :
    List LNode → Option (Bool × EngState)
  | [] => some (cond, s)
  | n :: rest =>
      match process_node now s cond n with
      | none => none
      | some r => process_list now r.2 r.1 rest
termination_by l => (sizeOf l, 1)
decreasing_by
  · simp_wf
    exact Prod.Lex.left _ _ (by omega)
  · simp_wf
    exact Prod.Lex.left _ _ (by omega)

end

/-- One parsed document entry of the Variables array, carrying exactly the
fields the load_variables switch reads for the variant selected by its Type
string (the selection of lines 193 to 211 of the source file is reflected in
which constructor a document entry yields). -/
inductive VEntry where
  | daio (name typeStr pin : String)
  | oneWire (name typeStr pin : String)
  | adc (name typeStr sensorType pdSck dataOut : String) (mapLow mapHigh gain : ℚ)
        (samplingRate : String)
  | boolean (name typeStr : String) (value : Bool)
  | number (name typeStr : String) (value : ℚ)
  | counter (name typeStr : String) (pv cv : ℚ) (cu cd qu qd : Bool)
  | timer (name typeStr : String) (pt et : ℚ) (tin q : Bool)
  | time (name typeStr : String) (value : ℚ)
deriving DecidableEq

/-- One step of the per-entry loop of load_variables: a successfully built
entry, an allocation failure (the calloc or malloc of the variant struct
returning NULL), or an entry whose adc_sensor_init call fails and which the
source skips with continue. -/
inductive LoadItem where
  | ok (e : VEntry)
  | allocFail
  | adcInitFail (e : VEntry)
deriving DecidableEq

/-- The store node a successfully loaded entry produces, mirroring the field
assignments of the per-variant case bodies.  The cached OneWire and ADC
values start at zero because the structs are calloc zeroed. -/
def build_node : VEntry → VariableNode
  | VEntry.daio n ty pin => ⟨n, ty, VarData.daio pin⟩
  | VEntry.oneWire n ty pin => ⟨n, ty, VarData.oneWire pin 0⟩
  | VEntry.adc n ty st sck dq ml mh g sr => ⟨n, ty, VarData.adc st sck dq ml mh g sr 0⟩
  | VEntry.boolean n ty v => ⟨n, ty, VarData.boolean v⟩
  | VEntry.number n ty v => ⟨n, ty, VarData.number v⟩
  | VEntry.counter n ty pv cv cu cd qu qd => ⟨n, ty, VarData.counter ⟨pv, cv, cu, cd, qu, qd⟩⟩
  | VEntry.timer n ty pt et tin q => ⟨n, ty, VarData.timer ⟨pt, et, tin, q⟩⟩
  | VEntry.time n ty v => ⟨n, ty, VarData.time v⟩

/-- The entry loop of load_variables.  An allocation failure frees the entry
and then calls variables_list_free, so the list built so far is discarded and
the function returns false with an empty store; an adc init failure skips the
entry and continues. -/
def load_go (acc : Store) : List LoadItem → Bool × Store
  | [] => (true, acc)
  | LoadItem.ok e :: rest => load_go (acc ++ [build_node e]) rest
  | LoadItem.allocFail :: _ => (false, [])
  | LoadItem.adcInitFail _ :: rest => load_go acc rest

/-- load_variables of the variables source file.  The function begins with
variables_list_free and variables_list_init, so the previous store prev is
discarded before the first entry is processed; it is never restored.  The
sampler task creation at the end is modeled as succeeding (its failure paths
also end in variables_list_free and false, covered by the same empty-store
result as allocFail). -/
def load_variables (prev : Store) (items : List LoadItem) : Bool × Store :=
  load_go [] items

/-- The node an item contributes to a fully successful load. -/
def loaded_node : LoadItem → Option VariableNode
  | LoadItem.ok e => some (build_node e)
  | LoadItem.allocFail => none
  | LoadItem.adcInitFail _ => none

/-- Whole-system state owned by conf_task_manager.c around the apply point:
the device descriptor (kept abstract as the raw Device value), the engine
globals, and the running wire tasks (each task owns one wire given as its
Nodes list). -/
structure SysState where
  device : String
  eng : EngState
  tasks : List (List LNode)

/-- conf_task_manager.c delete_all_tasks: deletes every wire task and frees
its wire copy.  Its buffer and timeout timer effects live in the ingestion
layer below.  It touches neither the variable store nor the engine state
tables of ladder_elements.c. -/
def delete_all_tasks (s : SysState) : SysState :=
  { s with tasks := [] }

/-- A parsed, structurally valid configuration document: Device value,
Variables array, and Wires array (one Nodes list per wire). -/
structure Doc where
  device : String
  vars : List LoadItem
  wires : List (List LNode)

/-- The apply point of configure (the body of the successful parse branch):
tear down all tasks, re-materialize device and variable store, and spawn one
task per wire.  configure ignores the boolean result of load_variables.  The
engine state tables are not touched by any statement on this path. -/
def apply_doc (s : SysState) (d : Doc) : SysState :=
  let s1 := delete_all_tasks s
  let loaded := load_variables s1.eng.store d.vars
  { device := d.device,
    eng := { s1.eng with store := loaded.2 },
    tasks := d.wires }

/-- State of the chunk reassembly buffer of configure plus the system it
applies into. -/
structure IngestState where
  buffer : List Char
  sys : SysState

/-- One configure call for one chunk: append to the buffer, try to parse the
whole buffer, and on success apply and clear the buffer.  The parse function
stands for cJSON_Parse followed by the extraction of Device, Variables and
Wires; chunks arriving within the 10 second window mean the timeout callback
never clears the buffer in between, which is why no timeout action appears
here. -/
def configure_step (parse : List Char → Option Doc) (st : IngestState) (chunk : List Char) :
    IngestState :=
  let buf := st.buffer ++ chunk
  match parse buf with
  | some d => { buffer := [], sys := apply_doc st.sys d }
  | none => { st with buffer := buf }

/-- A sequence of configure calls, one per chunk. -/
def configure_run (parse : List Char → Option Doc) (st : IngestState)
    (chunks : List (List Char)) : IngestState :=
  chunks.foldl (configure_step parse) st

/-! Concrete instances used to exercise the definitions. -/

/-- A quiescent driver layer. -/
def env0 : Env := { din := fun _ => false, dout := fun _ => false, aout := fun _ => 0 }

/-- A one-variable store standing for the table loaded by a previous apply. -/
def demoPrev : Store := [⟨"keep", "Boolean", VarData.boolean true⟩]

/-- A store with a single Boolean variable named b, set to true. -/
def boolStore : Store := [⟨"b", "Boolean", VarData.boolean true⟩]

/-- A store with a single Counter variable named k. -/
def ctrStore : Store := [⟨"k", "Counter", VarData.counter ⟨3, 5, false, false, false, false⟩⟩]

/-- A document entry for a Counter whose QU flag contradicts cv ≥ pv. -/
def c3entry : VEntry := VEntry.counter "ctr" "Counter" 3 5 false false false false

/-- The counter payload c3entry loads. -/
def c3ctr : Counter := ⟨3, 5, false, false, false, false⟩

/-- A document entry for a Timer whose elapsed time exceeds its preset while
its input is set. -/
def c8entry : VEntry := VEntry.timer "t" "Timer" 5000 99999 true false

/-- The timer payload c8entry loads. -/
def c8tmr : Timer := ⟨5000, 99999, true, false⟩

/-- Engine state for the division scenarios: a = 5, b = 0, c = 7, empty
engine tables. -/
def divEx : EngState :=
  ⟨env0,
   [⟨"a", "Number", VarData.number 5⟩, ⟨"b", "Number", VarData.number 0⟩,
    ⟨"c", "Number", VarData.number 7⟩],
   [], []⟩

/-- Engine state holding one idle 5 second timer named t. -/
def tmrEx : EngState :=
  ⟨env0, [⟨"t", "Timer", VarData.timer ⟨5000, 0, false, false⟩⟩], [], []⟩

/-- The engine state timer_off produces from tmrEx at time 600000 with a
true condition: input latched, q raised, elapsed time cleared. -/
def tmrExAfter : EngState :=
  ⟨env0, [⟨"t", "Timer", VarData.timer ⟨5000, 0, true, true⟩⟩], [], [("t", ⟨0, false⟩)]⟩

/-- System state with populated engine tables and one running wire task. -/
def sysA : SysState :=
  ⟨"dev", ⟨env0, [], [("x", true)], [("t", ⟨5, true⟩)]⟩,
   [[LNode.ladderElement "NOContact" ["x"]]]⟩

/-- A configuration document distinct from the one sysA is running. -/
def docA : Doc := ⟨"dev2", [], []⟩

/-- A two-byte document and a parse function that accepts exactly it. -/
def docB : Doc := ⟨"devB", [LoadItem.ok (VEntry.boolean "b" "Boolean" true)], [[]]⟩

/-- Parse function accepting exactly the byte string ab. -/
def parseB : List Char → Option Doc :=
  fun l => if l = ['a', 'b'] then some docB else none

/-! Shared lemmas about the loader. -/

/-- Any failing run of the entry loop ends with the empty store. -/
theorem load_go_false_empty :
    ∀ (items : List LoadItem) (acc : Store),
      (load_go acc items).1 = false → (load_go acc items).2 = [] := by
  intro items
  induction items with
  | nil => intro acc h; simp [load_go] at h
  | cons it rest ih =>
      intro acc h
      cases it with
      | ok e => exact ih _ (by simpa [load_go] using h)
      | allocFail => simp [load_go]
      | adcInitFail e => exact ih _ (by simpa [load_go] using h)

/-- Any successful run of the entry loop appends exactly the nodes built from
the surviving entries. -/
theorem load_go_true :
    ∀ (items : List LoadItem) (acc : Store),
      (load_go acc items).1 = true →
      (load_go acc items).2 = acc ++ items.filterMap loaded_node := by
  intro items
  induction items with
  | nil => intro acc _; simp [load_go]
  | cons it rest ih =>
      intro acc h
      cases it with
      | ok e =>
          have h2 := ih (acc ++ [build_node e]) (by simpa [load_go] using h)
          simp [load_go, h2, loaded_node, List.filterMap]
      | allocFail => simp [load_go] at h
      | adcInitFail e =>
          have h2 := ih acc (by simpa [load_go] using h)
          simp [load_go, h2, loaded_node, List.filterMap]

/-! C1. -/

/-- C1 counterexample: a load in which an entry fails returns false, yet the
store observable afterwards is empty rather than equal to the store that
existed before the load began. -/
theorem c1_counterexample :
    (load_variables demoPrev [LoadItem.allocFail]).1 = false ∧
    (load_variables demoPrev [LoadItem.allocFail]).2 ≠ demoPrev := by
  decide

/-- C1 amended: when load_variables fails, the observable store afterwards is
the empty store; the previous store was discarded up front and is never
restored. -/
theorem c1_failed_load_empties_store (prev : Store) (items : List LoadItem)
    (h : (load_variables prev items).1 = false) :
    (load_variables prev items).2 = [] := by
  unfold load_variables at h ⊢
  exact load_go_false_empty items [] h

/-- C1 witness: the amended statement at the concrete failing load. -/
theorem c1_failed_load_empties_store_witness :
    (load_variables demoPrev [LoadItem.allocFail]).1 = false ∧
    (load_variables demoPrev [LoadItem.allocFail]).2 = [] :=
  ⟨by decide, c1_failed_load_empties_store demoPrev [LoadItem.allocFail] (by decide)⟩

/-! C3. -/

/-- C3 counterexample: immediately after a successful load the Counter
variable carries qu = false although cv ≥ pv holds, because the flags are
loaded verbatim from the document and never recomputed. -/
theorem c3_counterexample :
    (load_variables [] [LoadItem.ok c3entry]).1 = true ∧
    (load_variables [] [LoadItem.ok c3entry]).2 =
      [⟨"ctr", "Counter", VarData.counter c3ctr⟩] ∧
    c3ctr.qu = false ∧ c3ctr.cv ≥ c3ctr.pv := by
  refine ⟨by decide, by decide, by decide, by decide⟩

/-- C3 amended: immediately after a successful load the store consists of
exactly the nodes built verbatim from the document entries; in particular
every Counter keeps the PV, CV, CU, CD, QU, QD values of its entry, so
qu = (cv ≥ pv) and qd = (cv ≤ 0) hold only if the document already satisfies
them. -/
theorem c3_load_verbatim (prev : Store) (items : List LoadItem)
    (h : (load_variables prev items).1 = true) :
    (load_variables prev items).2 = items.filterMap loaded_node := by
  unfold load_variables at h ⊢
  simpa using load_go_true items [] h

/-- C3 witness: the amended statement at the concrete counter load. -/
theorem c3_load_verbatim_witness :
    (load_variables [] [LoadItem.ok c3entry]).1 = true ∧
    (load_variables [] [LoadItem.ok c3entry]).2 =
      [LoadItem.ok c3entry].filterMap loaded_node :=
  ⟨by decide, c3_load_verbatim [] [LoadItem.ok c3entry] (by decide)⟩

/-! C5. -/

/-- C5: no_contact returns the negation of the boolean store read, and
nc_contact returns the boolean store read unchanged, for every name. -/
theorem c5_contact_semantics (env : Env) (store : Store) (a : String) :
    no_contact env store a = (read_variable env store a).map (fun r => !r) ∧
    nc_contact env store a = read_variable env store a := by
  constructor
  · cases h : read_variable env store a <;> simp [no_contact, h]
  · rfl

/-! Shared lemmas about the name-keyed state tables. -/

/-- A map that preserves keys does not change which keys a linear search can
find. -/
theorem find_keymap_isSome {α : Type} (t : List (String × α)) (f : String × α → String × α)
    (hf : ∀ e, (f e).1 = e.1) (k : String) :
    ((t.map f).find? (fun e => e.1 == k)).isSome = (t.find? (fun e => e.1 == k)).isSome := by
  induction t with
  | nil => rfl
  | cons e rest ih =>
      rw [List.map_cons]
      by_cases h2 : (e.1 == k) = true
      · simp [List.find?, h2, hf e]
      · simp only [List.find?]
        rw [hf e]
        simp only [Bool.not_eq_true] at h2
        rw [h2]
        exact ih

/-- A key found before an append is found at the same entry afterwards. -/
theorem find_pair_append_of_isSome {α : Type} (t : List (String × α)) (x : String × α)
    (k : String) (h : (t.find? (fun e => e.1 == k)).isSome = true) :
    (t ++ [x]).find? (fun e => e.1 == k) = t.find? (fun e => e.1 == k) := by
  induction t with
  | nil => simp at h
  | cons e rest ih =>
      by_cases h2 : (e.1 == k) = true
      · rw [List.cons_append]
        simp [List.find?, h2]
      · simp only [Bool.not_eq_true] at h2
        rw [List.cons_append]
        simp only [List.find?, h2] at h ⊢
        exact ih h

/-- Appending an entry for a previously absent key makes it findable. -/
theorem find_pair_append_self {α : Type} (t : List (String × α)) (k : String) (v : α)
    (h : t.find? (fun e => e.1 == k) = none) :
    (t ++ [(k, v)]).find? (fun e => e.1 == k) = some (k, v) := by
  induction t with
  | nil => simp
  | cons e rest ih =>
      by_cases h2 : (e.1 == k) = true
      · simp only [List.find?, h2] at h
        cases h
      · simp only [Bool.not_eq_true] at h2
        rw [List.cons_append]
        simp only [List.find?, h2] at h ⊢
        exact ih h

/-- Setting a present key makes its payload the set value. -/
theorem find_pair_set_self {α : Type} (t : List (String × α)) (k : String) (v : α)
    (h : (t.find? (fun e => e.1 == k)).isSome = true) :
    (t.map (fun e => if e.1 == k then (e.1, v) else e)).find? (fun e => e.1 == k)
      = some (k, v) := by
  induction t with
  | nil => simp at h
  | cons e rest ih =>
      rw [List.map_cons]
      by_cases h2 : (e.1 == k) = true
      · have he : e.1 = k := by simpa using h2
        have hhead : (if e.1 == k then (e.1, v) else e) = (k, v) := by
          rw [if_pos h2, he]
        rw [hhead]
        simp [List.find?]
      · have hhead : (if e.1 == k then (e.1, v) else e) = e := if_neg h2
        rw [hhead]
        simp only [Bool.not_eq_true] at h2
        simp only [List.find?, h2] at h ⊢
        exact ih h

/-- Domain stability of edge_set. -/
theorem edge_lookup_set_isSome (t : List (String × Bool)) (n : String) (v : Bool)
    (k : String) :
    (edge_lookup (edge_set t n v) k).isSome = (edge_lookup t k).isSome := by
  unfold edge_lookup edge_set
  rw [Option.isSome_map', Option.isSome_map']
  exact find_keymap_isSome t _ (fun e => by by_cases h : (e.1 == n) = true <;> simp [h]) k

/-- Reading back the key just set in the edge table. -/
theorem edge_lookup_set_self (t : List (String × Bool)) (k : String) (v : Bool)
    (h : (edge_lookup t k).isSome = true) :
    edge_lookup (edge_set t k v) k = some v := by
  have h2 : (t.find? (fun e => e.1 == k)).isSome = true := by
    unfold edge_lookup at h
    rwa [Option.isSome_map'] at h
  unfold edge_lookup edge_set
  rw [find_pair_set_self t k v h2]
  rfl

/-- get_one_shot_state success: the key is now present, and every previously
present key is still present. -/
theorem get_one_shot_state_domain (t : List (String × Bool)) (k : String)
    (p : Bool × List (String × Bool)) (h : get_one_shot_state t k = some p) :
    (edge_lookup p.2 k).isSome = true ∧
    (∀ j, (edge_lookup t j).isSome = true → (edge_lookup p.2 j).isSome = true) := by
  unfold get_one_shot_state at h
  cases hl : edge_lookup t k with
  | some b =>
      rw [hl] at h
      cases h
      exact ⟨by simp [hl], fun j hj => hj⟩
  | none =>
      rw [hl] at h
      by_cases hlen : t.length < 64
      · rw [if_pos hlen] at h
        cases h
        constructor
        · have h3 : t.find? (fun e => e.1 == k) = none := by
            unfold edge_lookup at hl
            exact Option.map_eq_none'.mp hl
          unfold edge_lookup
          rw [find_pair_append_self t k false h3]
          rfl
        · intro j hj
          have h4 : (t.find? (fun e => e.1 == j)).isSome = true := by
            unfold edge_lookup at hj
            rwa [Option.isSome_map'] at hj
          unfold edge_lookup at hj ⊢
          rwa [find_pair_append_of_isSome t (k, false) j h4]
      · rw [if_neg hlen] at h
        cases h

/-- r_trig changes only the edge table. -/
theorem r_trig_state (s : EngState) (v : String) (cond : Bool) :
    ((r_trig s v cond).2).env = s.env ∧ ((r_trig s v cond).2).store = s.store ∧
    ((r_trig s v cond).2).timers = s.timers := by
  unfold r_trig
  cases h : get_one_shot_state s.edges v <;> simp

/-- r_trig never removes edge table entries. -/
theorem r_trig_edges_domain (s : EngState) (v : String) (cond : Bool) (k : String)
    (h : (edge_lookup s.edges k).isSome = true) :
    (edge_lookup ((r_trig s v cond).2).edges k).isSome = true := by
  unfold r_trig
  cases hg : get_one_shot_state s.edges v with
  | none => simpa using h
  | some p =>
      simp only
      rw [edge_lookup_set_isSome]
      exact (get_one_shot_state_domain s.edges v p hg).2 k h

/-- Domain stability of timer_set. -/
theorem timer_lookup_set_isSome (t : List (String × TimerState)) (n : String)
    (v : TimerState) (k : String) :
    (timer_lookup (timer_set t n v) k).isSome = (timer_lookup t k).isSome := by
  unfold timer_lookup timer_set
  rw [Option.isSome_map', Option.isSome_map']
  exact find_keymap_isSome t _ (fun e => by by_cases h : (e.1 == n) = true <;> simp [h]) k

/-- get_timer_state success: every previously present key stays present. -/
theorem get_timer_state_domain (t : List (String × TimerState)) (k : String)
    (p : TimerState × List (String × TimerState)) (h : get_timer_state t k = some p) :
    ∀ j, (timer_lookup t j).isSome = true → (timer_lookup p.2 j).isSome = true := by
  unfold get_timer_state at h
  cases hl : timer_lookup t k with
  | some b =>
      rw [hl] at h
      cases h
      exact fun j hj => hj
  | none =>
      rw [hl] at h
      by_cases hlen : t.length < 32
      · rw [if_pos hlen] at h
        cases h
        intro j hj
        have h4 : (t.find? (fun e => e.1 == j)).isSome = true := by
          unfold timer_lookup at hj
          rwa [Option.isSome_map'] at hj
        unfold timer_lookup at hj ⊢
        rwa [find_pair_append_of_isSome t (k, (⟨0, false⟩ : TimerState)) j h4]
      · rw [if_neg hlen] at h
        cases h

/-- timer_on leaves the edge table alone and never removes timer table
entries. -/
theorem timer_on_tables (now : ℤ) (s : EngState) (v : String) (cond q : Bool)
    (s1 : EngState) (h : timer_on now s v cond = some (q, s1)) :
    s1.edges = s.edges ∧
    ∀ k, (timer_lookup s.timers k).isSome = true → (timer_lookup s1.timers k).isSome = true := by
  unfold timer_on at h
  split at h
  · cases h
  · split at h
    · rename_i t
      split at h
      · rename_i hg
        simp only [Option.some.injEq, Prod.mk.injEq] at h
        obtain ⟨_, hs⟩ := h
        subst hs
        exact ⟨rfl, fun k hk => hk⟩
      · rename_i p hg
        have hdom := get_timer_state_domain s.timers v p hg
        dsimp only at h
        split_ifs at h <;>
          (simp only [Option.some.injEq, Prod.mk.injEq] at h
           obtain ⟨_, hs⟩ := h
           subst hs
           exact ⟨rfl, fun k hk => by
             rw [timer_lookup_set_isSome]
             exact hdom k hk⟩)
    · cases h

/-- timer_off leaves the edge table alone and never removes timer table
entries. -/
theorem timer_off_tables (now : ℤ) (s : EngState) (v : String) (cond q : Bool)
    (s1 : EngState) (h : timer_off now s v cond = some (q, s1)) :
    s1.edges = s.edges ∧
    ∀ k, (timer_lookup s.timers k).isSome = true → (timer_lookup s1.timers k).isSome = true := by
  unfold timer_off at h
  split at h
  · cases h
  · split at h
    · rename_i t
      split at h
      · rename_i hg
        simp only [Option.some.injEq, Prod.mk.injEq] at h
        obtain ⟨_, hs⟩ := h
        subst hs
        exact ⟨rfl, fun k hk => hk⟩
      · rename_i p hg
        have hdom := get_timer_state_domain s.timers v p hg
        dsimp only at h
        split_ifs at h <;>
          (simp only [Option.some.injEq, Prod.mk.injEq] at h
           obtain ⟨_, hs⟩ := h
           subst hs
           exact ⟨rfl, fun k hk => by
             rw [timer_lookup_set_isSome]
             exact hdom k hk⟩)
    · cases h

/-- one_shot_positive_coil never removes edge table entries and leaves the
timer table alone. -/
theorem one_shot_tables (s : EngState) (v : String) (cond : Bool) (s1 : EngState)
    (h : one_shot_positive_coil s v cond = some s1) :
    (∀ k, (edge_lookup s.edges k).isSome = true → (edge_lookup s1.edges k).isSome = true) ∧
    s1.timers = s.timers := by
  unfold one_shot_positive_coil at h
  split at h
  · rename_i hg
    simp only [Option.some.injEq] at h
    subst h
    exact ⟨fun k hk => hk, rfl⟩
  · rename_i p hg
    have hdom := get_one_shot_state_domain s.edges v p hg
    dsimp only at h
    cases hw : write_variable s.env s.store v (cond && !p.1) <;> rw [hw] at h
    · cases h
    case some pr =>
      simp only [Option.map_some', Option.some.injEq] at h
      subst h
      refine ⟨fun k hk => ?_, rfl⟩
      rw [edge_lookup_set_isSome]
      exact hdom.2 k hk

/-- reset never removes entries from either table. -/
theorem reset_tables (s : EngState) (v : String) (cond : Bool) (s1 : EngState)
    (h : reset s v cond = some s1) :
    (∀ k, (edge_lookup s.edges k).isSome = true → (edge_lookup s1.edges k).isSome = true) ∧
    (∀ k, (timer_lookup s.timers k).isSome = true → (timer_lookup s1.timers k).isSome = true) := by
  have hst := r_trig_state s v cond
  unfold reset at h
  dsimp only at h
  split_ifs at h
  · split at h
    · cases h
    · split at h
      · rename_i c
        simp only [Option.some.injEq] at h
        subst h
        exact ⟨fun k hk => r_trig_edges_domain s v cond k hk,
               fun k hk => by rw [hst.2.2]; exact hk⟩
      · rename_i t
        split at h
        · rename_i hg
          simp only [Option.some.injEq] at h
          subst h
          exact ⟨fun k hk => r_trig_edges_domain s v cond k hk,
                 fun k hk => by rw [hst.2.2]; exact hk⟩
        · rename_i p hg
          rw [hst.2.2] at hg
          have hdom := get_timer_state_domain s.timers v p hg
          simp only [Option.some.injEq] at h
          subst h
          refine ⟨fun k hk => r_trig_edges_domain s v cond k hk, fun k hk => ?_⟩
          rw [timer_lookup_set_isSome]
          exact hdom k hk
      · rename_i hnc hnt
        simp only [Option.some.injEq] at h
        subst h
        exact ⟨fun k hk => r_trig_edges_domain s v cond k hk,
               fun k hk => by rw [hst.2.2]; exact hk⟩
  · simp only [Option.some.injEq] at h
    subst h
    exact ⟨fun k hk => r_trig_edges_domain s v cond k hk,
           fun k hk => by rw [hst.2.2]; exact hk⟩

/-! C2. -/

/-- C2 counterexample: applying a new configuration to a system whose engine
tables are populated leaves both tables populated; they are not reset to
empty on apply. -/
theorem c2_counterexample :
    (apply_doc sysA docA).eng.edges = [("x", true)] ∧
    ([("x", true)] : List (String × Bool)) ≠ [] ∧
    (apply_doc sysA docA).eng.timers = [("t", ⟨5, true⟩)] ∧
    ([("t", (⟨5, true⟩ : TimerState))] : List (String × TimerState)) ≠ [] :=
  ⟨rfl, by decide, rfl, by decide⟩

/-- C2 amended: the engine-private edge-state and timer-state tables are
preserved across wire iterations, each operator that touches them only
updating entries in place or appending new ones, and they are preserved
unchanged across applies as well: apply never resets them. -/
theorem c2_engine_tables_survive :
    (∀ (s : SysState) (d : Doc),
        (apply_doc s d).eng.edges = s.eng.edges ∧
        (apply_doc s d).eng.timers = s.eng.timers) ∧
    (∀ (s : EngState) (v : String) (cond : Bool) (k : String),
        (edge_lookup s.edges k).isSome = true →
        (edge_lookup ((r_trig s v cond).2).edges k).isSome = true ∧
        ((r_trig s v cond).2).timers = s.timers) ∧
    (∀ (s : EngState) (v : String) (cond : Bool) (s1 : EngState),
        one_shot_positive_coil s v cond = some s1 →
        (∀ k, (edge_lookup s.edges k).isSome = true →
          (edge_lookup s1.edges k).isSome = true) ∧ s1.timers = s.timers) ∧
    (∀ (now : ℤ) (s : EngState) (v : String) (cond q : Bool) (s1 : EngState),
        timer_on now s v cond = some (q, s1) →
        s1.edges = s.edges ∧
        ∀ k, (timer_lookup s.timers k).isSome = true →
          (timer_lookup s1.timers k).isSome = true) ∧
    (∀ (now : ℤ) (s : EngState) (v : String) (cond q : Bool) (s1 : EngState),
        timer_off now s v cond = some (q, s1) →
        s1.edges = s.edges ∧
        ∀ k, (timer_lookup s.timers k).isSome = true →
          (timer_lookup s1.timers k).isSome = true) ∧
    (∀ (s : EngState) (v : String) (cond : Bool) (s1 : EngState),
        reset s v cond = some s1 →
        (∀ k, (edge_lookup s.edges k).isSome = true →
          (edge_lookup s1.edges k).isSome = true) ∧
        (∀ k, (timer_lookup s.timers k).isSome = true →
          (timer_lookup s1.timers k).isSome = true)) := by
  refine ⟨fun s d => ⟨rfl, rfl⟩,
          fun s v cond k hk => ⟨r_trig_edges_domain s v cond k hk, (r_trig_state s v cond).2.2⟩,
          fun s v cond s1 h => one_shot_tables s v cond s1 h,
          fun now s v cond q s1 h => timer_on_tables now s v cond q s1 h,
          fun now s v cond q s1 h => timer_off_tables now s v cond q s1 h,
          fun s v cond s1 h => reset_tables s v cond s1 h⟩

/-- C2 witness: the apply-preservation and edge-domain statements at the
concrete populated system. -/
theorem c2_engine_tables_survive_witness :
    ((apply_doc sysA docA).eng.edges = sysA.eng.edges ∧
     (apply_doc sysA docA).eng.timers = sysA.eng.timers) ∧
    (edge_lookup ((r_trig sysA.eng "x" true).2).edges "x").isSome = true :=
  ⟨c2_engine_tables_survive.1 sysA docA,
   (c2_engine_tables_survive.2.1 sysA.eng "x" true "x" (by decide)).1⟩

/-! C4. -/

/-- C4 counterexample: a Boolean variable b read through the mismatched
suffix name b.CU returns its value true, not false, and the corresponding
write mutates it, so it is not a no-op; and a read of an entirely
unrecognized name is a NULL dereference fault rather than a silent false. -/
theorem c4_counterexample :
    read_variable env0 boolStore "b.CU" = some true ∧
    (write_variable env0 boolStore "b.CU" false).map (fun p => p.2)
      = some [⟨"b", "Boolean", VarData.boolean false⟩] ∧
    ([⟨"b", "Boolean", VarData.boolean false⟩] : Store) ≠ boolStore ∧
    read_variable env0 ([] : Store) "zzz" = none :=
  ⟨by decide, by decide, by decide, by decide⟩

/-- C4 amended: the silent path is per-kind, not uniform, and the operations
can fault.  A recognized dotted suffix that mismatches a Counter or Timer
kind silently reads false and makes the write a no-op, and Number, Time,
OneWireInput and ADCSensor base names silently read false and no-op the
write whatever the suffix; a Boolean base name ignores any suffix and
accesses its primary value; a DigitalIO base delegates the read to the
digital input or output driver according to its role (other roles read
false) and routes every write to the digital output driver; a name whose
base does not resolve faults (NULL dereference of the find_variable result),
and a bare Counter or Timer base name without a recognized suffix faults as
well (strcmp on the NULL suffix pointer); both faults are modeled as none. -/
theorem c4_accessor_behavior :
    (∀ (env : Env) (store : Store) (name base suf : String) (c : Counter) (v : Bool),
        parse_variable_name name = (base, some suf) →
        (find_variable store base).map VariableNode.vdata = some (VarData.counter c) →
        suf ≠ ".CU" → suf ≠ ".CD" → suf ≠ ".QU" → suf ≠ ".QD" →
        read_variable env store name = some false ∧
        write_variable env store name v = some (env, store)) ∧
    (∀ (env : Env) (store : Store) (name base suf : String) (t : Timer) (v : Bool),
        parse_variable_name name = (base, some suf) →
        (find_variable store base).map VariableNode.vdata = some (VarData.timer t) →
        suf ≠ ".IN" → suf ≠ ".Q" →
        read_variable env store name = some false ∧
        write_variable env store name v = some (env, store)) ∧
    (∀ (env : Env) (store : Store) (name : String) (x : ℚ) (v : Bool),
        (find_variable store (parse_variable_name name).1).map VariableNode.vdata
          = some (VarData.number x) →
        read_variable env store name = some false ∧
        write_variable env store name v = some (env, store)) ∧
    (∀ (env : Env) (store : Store) (name : String) (x : ℚ) (v : Bool),
        (find_variable store (parse_variable_name name).1).map VariableNode.vdata
          = some (VarData.time x) →
        read_variable env store name = some false ∧
        write_variable env store name v = some (env, store)) ∧
    (∀ (env : Env) (store : Store) (name pin : String) (x : ℚ) (v : Bool),
        (find_variable store (parse_variable_name name).1).map VariableNode.vdata
          = some (VarData.oneWire pin x) →
        read_variable env store name = some false ∧
        write_variable env store name v = some (env, store)) ∧
    (∀ (env : Env) (store : Store) (name st sck dq sr : String) (ml mh g x : ℚ)
        (v : Bool),
        (find_variable store (parse_variable_name name).1).map VariableNode.vdata
          = some (VarData.adc st sck dq ml mh g sr x) →
        read_variable env store name = some false ∧
        write_variable env store name v = some (env, store)) ∧
    (∀ (env : Env) (store : Store) (name : String) (v : Bool),
        find_variable store (parse_variable_name name).1 = none →
        read_variable env store name = none ∧
        write_variable env store name v = none) ∧
    (∀ (env : Env) (store : Store) (name : String) (b v : Bool),
        (find_variable store (parse_variable_name name).1).map VariableNode.vdata
          = some (VarData.boolean b) →
        read_variable env store name = some b ∧
        write_variable env store name v
          = some (env, update_variable store (parse_variable_name name).1
                        (VarData.boolean v))) ∧
    (∀ (env : Env) (store : Store) (name pin : String) (node : VariableNode) (v : Bool),
        find_variable store (parse_variable_name name).1 = some node →
        node.vdata = VarData.daio pin →
        read_variable env store name
          = (if node.typeStr = "Digital Input" then some (env.din pin)
             else if node.typeStr = "Digital Output" then some (env.dout pin)
             else some false) ∧
        write_variable env store name v
          = some ({ env with dout := fun q => if q = pin then v else env.dout q },
                  store)) ∧
    (∀ (env : Env) (store : Store) (name base : String) (c : Counter) (v : Bool),
        parse_variable_name name = (base, none) →
        (find_variable store base).map VariableNode.vdata = some (VarData.counter c) →
        read_variable env store name = none ∧
        write_variable env store name v = none) ∧
    (∀ (env : Env) (store : Store) (name base : String) (t : Timer) (v : Bool),
        parse_variable_name name = (base, none) →
        (find_variable store base).map VariableNode.vdata = some (VarData.timer t) →
        read_variable env store name = none ∧
        write_variable env store name v = none) := by
  refine ⟨?_, ?_, ?_, ?_, ?_, ?_, ?_, ?_, ?_, ?_, ?_⟩
  · intro env store name base suf c v hparse hfind h1 h2 h3 h4
    obtain ⟨node, hnode, hvd⟩ := Option.map_eq_some'.mp hfind
    constructor
    · simp [read_variable, hparse, hnode, hvd, h1, h2, h3, h4]
    · simp [write_variable, hparse, hnode, hvd, h1, h2, h3, h4]
  · intro env store name base suf t v hparse hfind h1 h2
    obtain ⟨node, hnode, hvd⟩ := Option.map_eq_some'.mp hfind
    constructor
    · simp [read_variable, hparse, hnode, hvd, h1, h2]
    · simp [write_variable, hparse, hnode, hvd, h1, h2]
  · intro env store name x v hfind
    obtain ⟨node, hnode, hvd⟩ := Option.map_eq_some'.mp hfind
    constructor
    · simp [read_variable, hnode, hvd]
    · simp [write_variable, hnode, hvd]
  · intro env store name x v hfind
    obtain ⟨node, hnode, hvd⟩ := Option.map_eq_some'.mp hfind
    constructor
    · simp [read_variable, hnode, hvd]
    · simp [write_variable, hnode, hvd]
  · intro env store name pin x v hfind
    obtain ⟨node, hnode, hvd⟩ := Option.map_eq_some'.mp hfind
    constructor
    · simp [read_variable, hnode, hvd]
    · simp [write_variable, hnode, hvd]
  · intro env store name st sck dq sr ml mh g x v hfind
    obtain ⟨node, hnode, hvd⟩ := Option.map_eq_some'.mp hfind
    constructor
    · simp [read_variable, hnode, hvd]
    · simp [write_variable, hnode, hvd]
  · intro env store name v hfind
    constructor
    · simp [read_variable, hfind]
    · simp [write_variable, hfind]
  · intro env store name b v hfind
    obtain ⟨node, hnode, hvd⟩ := Option.map_eq_some'.mp hfind
    constructor
    · simp [read_variable, hnode, hvd]
    · simp [write_variable, hnode, hvd]
  · intro env store name pin node v hnode hvd
    constructor
    · simp [read_variable, hnode, hvd]
    · simp [write_variable, hnode, hvd]
  · intro env store name base c v hparse hfind
    obtain ⟨node, hnode, hvd⟩ := Option.map_eq_some'.mp hfind
    constructor
    · simp [read_variable, hparse, hnode, hvd]
    · simp [write_variable, hparse, hnode, hvd]
  · intro env store name base t v hparse hfind
    obtain ⟨node, hnode, hvd⟩ := Option.map_eq_some'.mp hfind
    constructor
    · simp [read_variable, hparse, hnode, hvd]
    · simp [write_variable, hparse, hnode, hvd]

/-- C4 witness: the amended statement at the concrete counter store, through
the mismatched recognized suffix k.PT and through the bare faulting name k. -/
theorem c4_accessor_behavior_witness :
    (read_variable env0 ctrStore "k.PT" = some false ∧
     write_variable env0 ctrStore "k.PT" true = some (env0, ctrStore)) ∧
    (read_variable env0 ctrStore "k" = none ∧
     write_variable env0 ctrStore "k" true = none) :=
  ⟨c4_accessor_behavior.1 env0 ctrStore "k.PT" "k" ".PT"
     ⟨3, 5, false, false, false, false⟩ true (by decide) (by decide)
     (by decide) (by decide) (by decide) (by decide),
   c4_accessor_behavior.2.2.2.2.2.2.2.2.2.1 env0 ctrStore "k" "k"
     ⟨3, 5, false, false, false, false⟩ true (by decide) (by decide)⟩

/-! Shared lemmas about r_trig and divide. -/

/-- When the edge table already holds an entry for the name, r_trig computes
the edge from it and overwrites it with the current condition. -/
theorem r_trig_found (s : EngState) (c : String) (cond prev : Bool)
    (h : edge_lookup s.edges c = some prev) :
    r_trig s c cond = (cond && !prev, { s with edges := edge_set s.edges c cond }) := by
  have hg : get_one_shot_state s.edges c = some (prev, s.edges) := by
    unfold get_one_shot_state
    rw [h]
  unfold r_trig
  rw [hg]

/-- A fired r_trig leaves the gate name latched at the condition value. -/
theorem r_trig_fired_edge (s : EngState) (c : String) (cond : Bool)
    (hfire : (r_trig s c cond).1 = true) :
    edge_lookup ((r_trig s c cond).2).edges c = some cond := by
  cases hg : get_one_shot_state s.edges c with
  | none =>
      have hr : r_trig s c cond = (false, s) := by
        unfold r_trig
        rw [hg]
      rw [hr] at hfire
      exact Bool.noConfusion hfire
  | some p =>
      have hr : r_trig s c cond = (cond && !p.1, { s with edges := edge_set p.2 c cond }) := by
        unfold r_trig
        rw [hg]
      rw [hr]
      dsimp only
      exact edge_lookup_set_self p.2 c cond (get_one_shot_state_domain s.edges c p hg).1

/-- A divide whose edge gate does not fire performs no read and no write. -/
theorem divide_not_fired (s : EngState) (a b c : String) (cond : Bool)
    (hfire : (r_trig s c cond).1 = false) :
    divide s a b c cond = some ((r_trig s c cond).2) := by
  unfold divide
  dsimp only
  rw [hfire]
  rfl

/-- A fired divide whose divisor is below the 1e-6 threshold suppresses the
write: the result state is exactly the r_trig output. -/
theorem divide_fired_small (s : EngState) (a b c : String) (cond : Bool) (x y : ℚ)
    (hfire : (r_trig s c cond).1 = true)
    (ha : read_numeric_variable s.env s.store a = some x)
    (hb : read_numeric_variable s.env s.store b = some y)
    (hy : |y| < 1 / 1000000) :
    divide s a b c cond = some ((r_trig s c cond).2) := by
  have hst := r_trig_state s c cond
  unfold divide
  dsimp only
  rw [hfire, if_pos rfl, hst.1, hst.2.1, ha, hb]
  dsimp only
  rw [if_pos hy]

/-- A fired divide with a valid divisor writes the quotient. -/
theorem divide_fired_write (s : EngState) (a b c : String) (cond : Bool) (x y : ℚ)
    (hfire : (r_trig s c cond).1 = true)
    (ha : read_numeric_variable s.env s.store a = some x)
    (hb : read_numeric_variable s.env s.store b = some y)
    (hy : ¬(|y| < 1 / 1000000)) :
    divide s a b c cond
      = (write_numeric_variable s.env s.store c (x / y)).map
          (fun p => { (r_trig s c cond).2 with env := p.1, store := p.2 }) := by
  have hst := r_trig_state s c cond
  unfold divide
  dsimp only
  rw [hfire, if_pos rfl, hst.1, hst.2.1, ha, hb]
  dsimp only
  rw [if_neg hy]

/-! C7. -/

/-- C7: when the rising-edge gate on c fires and the divisor magnitude is
below 1e-6, the division is suppressed: divide returns exactly the r_trig
output state, whose store and driver state are those before the call, so no
write to c occurs. -/
theorem c7_divide_near_zero_suppressed (s : EngState) (a b c : String) (cond : Bool)
    (x y : ℚ)
    (hfire : (r_trig s c cond).1 = true)
    (ha : read_numeric_variable s.env s.store a = some x)
    (hb : read_numeric_variable s.env s.store b = some y)
    (hy : |y| < 1 / 1000000) :
    divide s a b c cond = some ((r_trig s c cond).2) ∧
    ((r_trig s c cond).2).store = s.store ∧
    ((r_trig s c cond).2).env = s.env := by
  have hst := r_trig_state s c cond
  exact ⟨divide_fired_small s a b c cond x y hfire ha hb hy, hst.2.1, hst.1⟩

/-- C7 witness: the suppressed division at the concrete state with a = 5,
b = 0, c = 7. -/
theorem c7_divide_near_zero_suppressed_witness :
    divide divEx "a" "b" "c" true = some ((r_trig divEx "c" true).2) ∧
    ((r_trig divEx "c" true).2).store = divEx.store := by
  have h := c7_divide_near_zero_suppressed divEx "a" "b" "c" true 5 0
    (by decide) (by decide) (by decide) (by rw [abs_zero]; norm_num)
  exact ⟨h.1, h.2.1⟩

/-! C10. -/

/-- C10: a suppressed division still latches the edge state of c to true, so
while the condition stays true no later invocation fires and the store stays
unchanged; a falling call relatches the edge to false, and only then does a
rising call with a valid divisor perform the write. -/
theorem c10_divide_edge_latch (s : EngState) (a b c : String) (x y : ℚ)
    (hfire : (r_trig s c true).1 = true)
    (ha : read_numeric_variable s.env s.store a = some x)
    (hb : read_numeric_variable s.env s.store b = some y)
    (hy : |y| < 1 / 1000000) :
    divide s a b c true = some ((r_trig s c true).2) ∧
    edge_lookup ((r_trig s c true).2).edges c = some true ∧
    (∀ s1 : EngState, edge_lookup s1.edges c = some true →
        divide s1 a b c true = some ((r_trig s1 c true).2) ∧
        ((r_trig s1 c true).2).store = s1.store ∧
        edge_lookup ((r_trig s1 c true).2).edges c = some true) ∧
    (∀ s1 : EngState, edge_lookup s1.edges c = some true →
        divide s1 a b c false = some ((r_trig s1 c false).2) ∧
        ((r_trig s1 c false).2).store = s1.store ∧
        edge_lookup ((r_trig s1 c false).2).edges c = some false) ∧
    (∀ (s1 : EngState) (x1 y1 : ℚ), edge_lookup s1.edges c = some false →
        read_numeric_variable s1.env s1.store a = some x1 →
        read_numeric_variable s1.env s1.store b = some y1 →
        ¬(|y1| < 1 / 1000000) →
        divide s1 a b c true
          = (write_numeric_variable s1.env s1.store c (x1 / y1)).map
              (fun p => { (r_trig s1 c true).2 with env := p.1, store := p.2 })) := by
  refine ⟨divide_fired_small s a b c true x y hfire ha hb hy,
          r_trig_fired_edge s c true hfire, ?_, ?_, ?_⟩
  · intro s1 h1
    have hr := r_trig_found s1 c true true h1
    have hnf : (r_trig s1 c true).1 = false := by rw [hr]; rfl
    have hsome : (edge_lookup s1.edges c).isSome = true := by rw [h1]; rfl
    refine ⟨divide_not_fired s1 a b c true hnf, ?_, ?_⟩
    · exact (r_trig_state s1 c true).2.1
    · rw [hr]
      exact edge_lookup_set_self s1.edges c true hsome
  · intro s1 h1
    have hr := r_trig_found s1 c false true h1
    have hnf : (r_trig s1 c false).1 = false := by rw [hr]; rfl
    have hsome : (edge_lookup s1.edges c).isSome = true := by rw [h1]; rfl
    refine ⟨divide_not_fired s1 a b c false hnf, ?_, ?_⟩
    · exact (r_trig_state s1 c false).2.1
    · rw [hr]
      exact edge_lookup_set_self s1.edges c false hsome
  · intro s1 x1 y1 h1 ha1 hb1 hy1
    have hr := r_trig_found s1 c true false h1
    have hf : (r_trig s1 c true).1 = true := by rw [hr]; rfl
    exact divide_fired_write s1 a b c true x1 y1 hf ha1 hb1 hy1

/-- C10 witness: the latch statement at the concrete division state. -/
theorem c10_divide_edge_latch_witness :
    divide divEx "a" "b" "c" true = some ((r_trig divEx "c" true).2) ∧
    edge_lookup ((r_trig divEx "c" true).2).edges "c" = some true := by
  have h := c10_divide_edge_latch divEx "a" "b" "c" 5 0
    (by decide) (by decide) (by decide) (by rw [abs_zero]; norm_num)
  exact ⟨h.1, h.2.1⟩

/-! C6. -/

/-- C6: in a wire scan, an OnDelayTimer element ANDs its returned q into the
running condition, while an OffDelayTimer element overwrites the running
condition with its returned q, regardless of the condition accumulated so
far. -/
theorem c6_timer_condition_combination (now : ℤ) (s : EngState) (cond : Bool)
    (a : String) :
    process_node now s cond (LNode.ladderElement "OnDelayTimer" [a])
      = (timer_on now s a cond).map (fun p => (cond && p.1, p.2)) ∧
    process_node now s cond (LNode.ladderElement "OffDelayTimer" [a])
      = (timer_off now s a cond).map (fun p => (p.1, p.2)) := by
  constructor
  · simp [process_node]
  · simp [process_node]

/-! Shared lemmas for the timer postcondition. -/

/-- Mutating the found node through its pointer: a later lookup of the same
name sees the new payload. -/
theorem find_variable_update (store : Store) (k : String) (d : VarData)
    (node : VariableNode) (h : find_variable store k = some node) :
    find_variable (update_variable store k d) k = some { node with vdata := d } := by
  induction store with
  | nil => simp [find_variable] at h
  | cons n rest ih =>
      unfold find_variable at h ⊢
      unfold update_variable
      by_cases hk : (n.name == k) = true
      · rw [if_pos hk]
        simp only [List.find?, hk] at h
        have hk2 : (({ n with vdata := d } : VariableNode).name == k) = true := hk
        simp only [List.find?, hk2]
        cases h
        rfl
      · rw [if_neg hk]
        simp only [Bool.not_eq_true] at hk
        simp only [List.find?, hk] at h ⊢
        exact ih h

/-- get_timer_state either returns the found entry or a fresh zeroed one. -/
theorem get_timer_state_spec (t : List (String × TimerState)) (k : String)
    (p : TimerState × List (String × TimerState)) (h : get_timer_state t k = some p) :
    timer_lookup t k = some p.1 ∨ (timer_lookup t k = none ∧ p.1 = ⟨0, false⟩) := by
  unfold get_timer_state at h
  cases hl : timer_lookup t k with
  | some stx =>
      rw [hl] at h
      cases h
      exact Or.inl rfl
  | none =>
      rw [hl] at h
      by_cases hlen : t.length < 32
      · rw [if_pos hlen] at h
        cases h
        exact Or.inr ⟨rfl, rfl⟩
      · rw [if_neg hlen] at h
        cases h

/-- The monotonic-clock premise gives a bound on the recorded start time of a
running entry. -/
theorem timer_mono_start (t : List (String × TimerState)) (k : String) (now : ℤ)
    (hmono : timer_mono t k now = true) (stx : TimerState)
    (hl : timer_lookup t k = some stx) (hr : stx.running = true) :
    stx.start_time ≤ now := by
  unfold timer_mono at hmono
  rw [hl] at hmono
  change (!stx.running || decide (stx.start_time ≤ now)) = true at hmono
  rw [hr] at hmono
  simpa using hmono

/-! C8. -/

/-- C8 counterexample: a successful load accepts a Timer entry with
pt = 5000, et = 99999 and in = true verbatim, so immediately after apply a
Timer variable violates et ≤ pt although pt > 0 and in = true, and it keeps
violating it on every scan cycle in which no timer operator names it. -/
theorem c8_counterexample :
    (load_variables [] [LoadItem.ok c8entry]).1 = true ∧
    (load_variables [] [LoadItem.ok c8entry]).2 = [⟨"t", "Timer", VarData.timer c8tmr⟩] ∧
    0 < c8tmr.pt ∧ c8tmr.tin = true ∧ ¬(c8tmr.et ≤ c8tmr.pt) :=
  ⟨by decide, by decide, by decide, by decide, by decide⟩

/-- Clamping an elapsed-time candidate at the preset keeps it in range. -/
theorem clamp_bounds (e pt : ℚ) (hpt : 0 < pt) (he : 0 ≤ e) :
    0 ≤ (if decide (e > pt) = true then pt else e) ∧
    (if decide (e > pt) = true then pt else e) ≤ pt := by
  by_cases hcl : decide (e > pt) = true
  · rw [if_pos hcl]
    exact ⟨le_of_lt hpt, le_refl _⟩
  · rw [if_neg hcl]
    have h2 : ¬(e > pt) := by simpa using hcl
    exact ⟨he, le_of_not_lt h2⟩

/-- C8 amended: the clamping is an operator postcondition, not a store
invariant.  Whenever timer_on or timer_off runs on a timer under a monotonic
clock and with timer-state capacity, and the resulting timer has pt > 0 and
in = true, its elapsed time lies in the interval from 0 to pt.  Timers whose
document values violate the bound keep violating it until a timer operator
touches them. -/
theorem c8_timer_ops_clamp (now : ℤ) (s : EngState) (v : String) (cond q : Bool)
    (s1 : EngState) (t1 : Timer)
    (hmono : timer_mono s.timers v now = true)
    (hget : (get_timer_state s.timers v).isSome = true)
    (hrun : timer_on now s v cond = some (q, s1) ∨ timer_off now s v cond = some (q, s1))
    (ht : (find_variable s1.store v).map VariableNode.vdata = some (VarData.timer t1))
    (hpt : 0 < t1.pt) (hin : t1.tin = true) :
    0 ≤ t1.et ∧ t1.et ≤ t1.pt := by
  rcases hrun with h | h
  · -- timer_on
    unfold timer_on at h
    split at h
    · cases h
    · rename_i node hf
      split at h
      · rename_i t hvd
        split at h
        · rename_i hg
          rw [hg] at hget
          simp at hget
        · rename_i p hg
          have hstart : p.1.running = true → p.1.start_time ≤ now := by
            intro hr
            rcases get_timer_state_spec s.timers v p hg with hl | ⟨_, hp⟩
            · exact timer_mono_start s.timers v now hmono p.1 hl hr
            · rw [hp] at hr
              cases hr
          dsimp only at h
          by_cases hpt0 : t.pt ≤ 0
          · rw [if_pos hpt0] at h
            simp only [Option.some.injEq, Prod.mk.injEq] at h
            obtain ⟨_, hs⟩ := h
            subst hs
            dsimp only at ht
            rw [find_variable_update s.store v _ node hf] at ht
            simp only [Option.map_some', Option.some.injEq, VarData.timer.injEq] at ht
            subst ht
            simp only at hpt
            exact absurd hpt (by simpa using not_lt.mpr hpt0)
          · rw [if_neg hpt0] at h
            have hptpos : (0 : ℚ) < t.pt := lt_of_not_le hpt0
            by_cases hc : cond = true
            · rw [if_pos hc] at h
              by_cases hrun1 :
                  (if (!p.1.running && !t.q) = true then (⟨now, true⟩ : TimerState)
                   else p.1).running = true
              · rw [if_pos hrun1] at h
                simp only [Option.some.injEq, Prod.mk.injEq] at h
                obtain ⟨_, hs⟩ := h
                subst hs
                dsimp only at ht
                rw [find_variable_update s.store v _ node hf] at ht
                simp only [Option.map_some', Option.some.injEq, VarData.timer.injEq] at ht
                subst ht
                have he : (0 : ℚ) ≤
                    ((now - (if (!p.1.running && !t.q) = true then (⟨now, true⟩ : TimerState)
                      else p.1).start_time : ℤ) : ℚ) / 1000 := by
                  by_cases hsel : (!p.1.running && !t.q) = true
                  · rw [if_pos hsel]
                    simp
                  · rw [if_neg hsel]
                    rw [if_neg hsel] at hrun1
                    have hle := hstart hrun1
                    have hnn : (0 : ℚ) ≤ ((now - p.1.start_time : ℤ) : ℚ) := by
                      exact_mod_cast sub_nonneg.mpr hle
                    positivity
                exact clamp_bounds _ t.pt hptpos he
              · rw [if_neg hrun1] at h
                simp only [Option.some.injEq, Prod.mk.injEq] at h
                obtain ⟨_, hs⟩ := h
                subst hs
                dsimp only at ht
                rw [find_variable_update s.store v _ node hf] at ht
                simp only [Option.map_some', Option.some.injEq, VarData.timer.injEq] at ht
                subst ht
                exact ⟨le_of_lt hptpos, le_refl _⟩
            · rw [if_neg hc] at h
              simp only [Option.some.injEq, Prod.mk.injEq] at h
              obtain ⟨_, hs⟩ := h
              subst hs
              dsimp only at ht
              rw [find_variable_update s.store v _ node hf] at ht
              simp only [Option.map_some', Option.some.injEq, VarData.timer.injEq] at ht
              subst ht
              simp only at hin
              exact absurd hin hc
      · cases h
  · -- timer_off
    unfold timer_off at h
    split at h
    · cases h
    · rename_i node hf
      split at h
      · rename_i t hvd
        split at h
        · rename_i hg
          rw [hg] at hget
          simp at hget
        · rename_i p hg
          dsimp only at h
          by_cases hpt0 : t.pt ≤ 0
          · rw [if_pos hpt0] at h
            simp only [Option.some.injEq, Prod.mk.injEq] at h
            obtain ⟨_, hs⟩ := h
            subst hs
            dsimp only at ht
            rw [find_variable_update s.store v _ node hf] at ht
            simp only [Option.map_some', Option.some.injEq, VarData.timer.injEq] at ht
            subst ht
            simp only at hpt
            exact absurd hpt (by simpa using not_lt.mpr hpt0)
          · rw [if_neg hpt0] at h
            have hptpos : (0 : ℚ) < t.pt := lt_of_not_le hpt0
            by_cases hc : cond = true
            · rw [if_pos hc] at h
              simp only [Option.some.injEq, Prod.mk.injEq] at h
              obtain ⟨_, hs⟩ := h
              subst hs
              dsimp only at ht
              rw [find_variable_update s.store v _ node hf] at ht
              simp only [Option.map_some', Option.some.injEq, VarData.timer.injEq] at ht
              subst ht
              exact ⟨le_refl _, le_of_lt hptpos⟩
            · rw [if_neg hc] at h
              split_ifs at h <;>
                (simp only [Option.some.injEq, Prod.mk.injEq] at h
                 obtain ⟨_, hs⟩ := h
                 subst hs
                 dsimp only at ht
                 rw [find_variable_update s.store v _ node hf] at ht
                 simp only [Option.map_some', Option.some.injEq, VarData.timer.injEq] at ht
                 subst ht
                 simp only at hin
                 exact absurd hin hc)
      · cases h

/-- C8 witness: the amended postcondition at the concrete idle timer driven
by timer_off with a true condition. -/
theorem c8_timer_ops_clamp_witness :
    0 ≤ ((⟨5000, 0, true, true⟩ : Timer)).et ∧
    ((⟨5000, 0, true, true⟩ : Timer)).et ≤ ((⟨5000, 0, true, true⟩ : Timer)).pt :=
  c8_timer_ops_clamp 600000 tmrEx "t" true true tmrExAfter ⟨5000, 0, true, true⟩
    (by decide) (by decide) (Or.inr rfl) (by decide) (by decide) rfl

/-! Shared lemmas about chunked ingestion. -/

/-- Feeding empty chunks to an idle buffer changes nothing when the empty
buffer does not parse. -/
theorem configure_run_empty_chunks (parse : List Char → Option Doc) (s : SysState)
    (hnil : parse [] = none) :
    ∀ rest : List (List Char), (∀ c ∈ rest, c = []) →
      configure_run parse ⟨[], s⟩ rest = ⟨[], s⟩ := by
  intro rest
  induction rest with
  | nil => intro _; rfl
  | cons c r ih =>
      intro hall
      have hc : c = [] := hall c (List.mem_cons_self c r)
      subst hc
      have hstep : configure_step parse ⟨[], s⟩ [] = ⟨[], s⟩ := by
        unfold configure_step
        simp [hnil]
      unfold configure_run at ih ⊢
      rw [List.foldl_cons, hstep]
      exact ih (fun x hx => hall x (List.mem_cons_of_mem _ hx))

/-- Running chunks whose concatenation completes the document, starting from
any buffered proper prefix, ends idle with the document applied. -/
theorem configure_run_completes (parse : List Char → Option Doc) (bytes : List Char)
    (d : Doc) (s0 : SysState)
    (hparse : parse bytes = some d)
    (hpref : ∀ p : List Char, (∃ tail, p ++ tail = bytes) → p ≠ bytes → parse p = none)
    (hbne : bytes ≠ []) :
    ∀ (chunks : List (List Char)) (pre : List Char),
      chunks ≠ [] → pre ++ chunks.flatten = bytes →
      configure_run parse ⟨pre, s0⟩ chunks = ⟨[], apply_doc s0 d⟩ := by
  intro chunks
  induction chunks with
  | nil => intro pre hne _; exact absurd rfl hne
  | cons c rest ih =>
      intro pre _ hjoin
      have hjoin2 : (pre ++ c) ++ rest.flatten = bytes := by
        rw [List.append_assoc]
        simpa [List.flatten] using hjoin
      unfold configure_run
      rw [List.foldl_cons]
      by_cases hb : pre ++ c = bytes
      · have hstep : configure_step parse ⟨pre, s0⟩ c = ⟨[], apply_doc s0 d⟩ := by
          unfold configure_step
          dsimp only
          rw [hb, hparse]
        rw [hstep]
        have hrest : rest.flatten = [] := by
          rw [hb] at hjoin2
          simpa using hjoin2
        have hallnil : ∀ x ∈ rest, x = [] := by
          rw [List.flatten_eq_nil_iff] at hrest
          exact hrest
        have hnil0 : parse [] = none :=
          hpref [] ⟨bytes, rfl⟩ (fun hh => hbne hh.symm)
        exact configure_run_empty_chunks parse (apply_doc s0 d) hnil0 rest hallnil
      · have hstep : configure_step parse ⟨pre, s0⟩ c = ⟨pre ++ c, s0⟩ := by
          unfold configure_step
          dsimp only
          rw [hpref (pre ++ c) ⟨rest.flatten, hjoin2⟩ hb]
        rw [hstep]
        have hrne : rest ≠ [] := by
          intro hr
          subst hr
          simp only [List.flatten_nil, List.append_nil] at hjoin2
          exact hb hjoin2
        exact ih (pre ++ c) hrne hjoin2

/-! C9. -/

/-- C9: for any partition of a valid document into chunks all arriving
within the timeout window (no buffer-clearing timeout fires in between), the
applied system state is identical to submitting the document as one chunk.
Validity supplies the premise that no proper prefix of the document bytes
parses as a complete document, which holds for cJSON because a JSON object
is only accepted once its closing brace arrives. -/
theorem c9_chunked_ingest_equiv (parse : List Char → Option Doc) (bytes : List Char)
    (d : Doc) (chunks : List (List Char)) (s0 : SysState)
    (hbne : bytes ≠ []) (hcne : chunks ≠ [])
    (hjoin : chunks.flatten = bytes)
    (hparse : parse bytes = some d)
    (hpref : ∀ p : List Char, (∃ tail, p ++ tail = bytes) → p ≠ bytes → parse p = none) :
    configure_run parse ⟨[], s0⟩ chunks = configure_run parse ⟨[], s0⟩ [bytes] := by
  have h1 := configure_run_completes parse bytes d s0 hparse hpref hbne chunks [] hcne
    (by simpa using hjoin)
  have h2 : configure_run parse ⟨[], s0⟩ [bytes] = ⟨[], apply_doc s0 d⟩ := by
    unfold configure_run configure_step
    simp [hparse]
  rw [h1, h2]

/-- C9 witness: the two-chunk split of the two-byte document applied to the
concrete system equals the single-chunk submission. -/
theorem c9_chunked_ingest_equiv_witness :
    configure_run parseB ⟨[], sysA⟩ [['a'], ['b']]
      = configure_run parseB ⟨[], sysA⟩ [['a', 'b']] :=
  c9_chunked_ingest_equiv parseB ['a', 'b'] docB [['a'], ['b']] sysA
    (by decide) (by decide) (by decide) rfl
    (fun p _ hne => by
      unfold parseB
      rw [if_neg hne])

end PLCRun
